import Mathlib

/-!
Verification of the Qiita evaluation bot (`main.py`).

The program is a FastAPI service: `evaluate(article_id, user)` reads the
user's past evaluations from SQLite, fetches the article from the Qiita
API, asks an LLM to grade it, extracts a score with the regex
`(\d{1,3})点`, appends one row to the `evaluations` table and returns
`{user, score, review}`; `get_user_history(user)` returns the rows for a
user ordered by `created_at DESC`.

Modelling conventions:
* Text is `List Char`.
* JSON values are modelled by the inductive `Json`; numbers are `Int`
  (the program never arithmetically touches them), objects carry their
  fields as an association list with distinct keys.
* Python `\d` is modelled as the ASCII digits `Char.isDigit`, and
  `int(...)` on the matched group as `digitsVal`: the spec and the code
  share one notion of digit, so the claims are insensitive to the wider
  Unicode digit class.
* External effects (HTTP fetch, JSON parsing, the LLM call, SQLite
  connect/SELECT and INSERT/commit) are oracles carried by
  `RequestInput`; a Python exception in a step is that oracle's error
  outcome and is caught at the handler's `try` boundary.
* `CURRENT_TIMESTAMP` is modelled by a store clock that strictly
  increases with every insert.
-/

/-- JSON values as returned by `response.json()`. -/
inductive Json where
  | null : Json
  | jbool : Bool → Json
  | jnum : Int → Json
  | jstr : List Char → Json
  | jarr : List Json → Json
  | jobj : List (List Char × Json) → Json

/-- Python truthiness of a JSON value (`if not article:`). -/
def pyTruthy : Json → Bool
  | Json.null => false
  | Json.jbool b => b
  | Json.jnum n => decide (n ≠ 0)
  | Json.jstr s => !s.isEmpty
  | Json.jarr es => !es.isEmpty
  | Json.jobj fs => !fs.isEmpty

/-- Dict lookup; object field lists model Python dicts with distinct keys. -/
def lookupField : List (List Char × Json) → List Char → Option Json
  | [], _ => none
  | (k, v) :: rest, key => if k = key then some v else lookupField rest key

/-- `article.get(key)` with no default: `None` when absent, raises
(`Except.error`) when the value is not a dict. -/
def pyGet (j : Json) (key : List Char) : Except Unit (Option Json) :=
  match j with
  | Json.jobj fs => Except.ok (lookupField fs key)
  | _ => Except.error ()

/-- `article.get(key, default)`: raises when the value is not a dict. -/
def pyGetD (j : Json) (key : List Char) (d : Json) : Except Unit Json :=
  match j with
  | Json.jobj fs => Except.ok ((lookupField fs key).getD d)
  | _ => Except.error ()

/-- Python `len(...)`: defined on strings, lists and dicts, raises otherwise. -/
def jsonLen : Json → Except Unit Nat
  | Json.jstr s => Except.ok s.length
  | Json.jarr es => Except.ok es.length
  | Json.jobj fs => Except.ok fs.length
  | _ => Except.error ()

/-- Python `", ".join(...)`. -/
def commaSpaceJoin : List (List Char) → List Char
  | [] => []
  | [x] => x
  | x :: y :: rest => x ++ ", ".data ++ commaSpaceJoin (y :: rest)

mutual
/-- Python `repr` of a JSON value (element formatting inside `str` of a
container); string escaping inside `repr` is not modelled. -/
def jsonRepr : Json → List Char
  | Json.null => "None".data
  | Json.jbool true => "True".data
  | Json.jbool false => "False".data
  | Json.jnum n => (toString n).data
  | Json.jstr s => "\x27".data ++ s ++ "\x27".data
  | Json.jarr es => "[".data ++ commaSpaceJoin (jsonReprList es) ++ "]".data
  | Json.jobj fs => "\x7b".data ++ commaSpaceJoin (jsonReprFields fs) ++ "\x7d".data

def jsonReprList : List Json → List (List Char)
  | [] => []
  | j :: js => jsonRepr j :: jsonReprList js

def jsonReprFields : List (List Char × Json) → List (List Char)
  | [] => []
  | (k, v) :: fs => ("\x27".data ++ k ++ "\x27: ".data ++ jsonRepr v) :: jsonReprFields fs
end

/-- Python `str(...)` as used by f-string interpolation. -/
def jsonFmt : Json → List Char
  | Json.jstr s => s
  | j => jsonRepr j

/-- The digit class `[0-9]` of the regex `\d` (ASCII, see the header note). -/
def isDig (c : Char) : Bool :=
  decide (48 ≤ c.toNat) && decide (c.toNat ≤ 57)

/-- Value of a digit string, as `int(...)` computes it on the matched group. -/
def digitsVal (ds : List Char) : Nat :=
  ds.foldl (fun a c => a * 10 + (c.toNat - 48)) 0

/-- One attempt of the regex engine at the current position: match exactly
`k` digits followed by the character 点, returning the digit group. -/
def tryDigits (s : List Char) (k : Nat) : Option (List Char) :=
  if (s.take k).length = k ∧ (s.take k).all isDig = true ∧ s.get? k = some '点'
  then some (s.take k) else none

/-- The greedy `\d{1,3}` with backtracking at one position: try three
digits, then two, then one. -/
def matchHere (s : List Char) : Option (List Char) :=
  match tryDigits s 3 with
  | some g => some g
  | none =>
    match tryDigits s 2 with
    | some g => some g
    | none => tryDigits s 1

/-- `re.search`: leftmost position where `(\d{1,3})点` matches. -/
def reSearch : List Char → Option (List Char)
  | [] => none
  | c :: cs =>
    match matchHere (c :: cs) with
    | some g => some g
    | none => reSearch cs

/-- Lines 140-141: `match = re.search(r"(\d{1,3})点", evaluation)` and
`int(match.group(1)) if match else None`. -/
def extractScore (s : List Char) : Option Nat :=
  (reSearch s).map digitsVal

/-- Characters stripped by Python `str.strip()` (the whitespace the
program can encounter, including the ideographic space). -/
def pySpace (c : Char) : Bool :=
  c = ' ' || c = '\t' || c = '\n' || c = '\r' ||
  c = Char.ofNat 11 || c = Char.ofNat 12 || c = Char.ofNat 0x3000

/-- Python `str.strip()`. -/
def pyStrip (s : List Char) : List Char :=
  ((s.dropWhile pySpace).reverse.dropWhile pySpace).reverse

/-- Python `.replace("  ", " ")`: one left-to-right pass over the string
replacing each non-overlapping occurrence of two spaces by one. -/
def collapseOnce : List Char → List Char
  | [] => []
  | [c] => [c]
  | c1 :: c2 :: rest =>
    if c1 = ' ' ∧ c2 = ' ' then ' ' :: collapseOnce rest
    else c1 :: collapseOnce (c2 :: rest)

/-- Line 115: `result.replace("\n", " ").replace("  ", " ").strip()`. -/
def cleanResult (raw : List Char) : List Char :=
  pyStrip (collapseOnce (raw.map (fun c => if c = '\n' then ' ' else c)))

/-- Tag names, line 51: `[tag['name'] for tag in ...]` joined by `", "`;
errors where Python raises (non-dict tag, missing name, non-string name). -/
def tagNames : List Json → Except Unit (List (List Char))
  | [] => Except.ok []
  | t :: ts =>
    match t with
    | Json.jobj fs =>
      match lookupField fs "name".data with
      | some (Json.jstr s) => (tagNames ts).map (fun rest => s :: rest)
      | some _ => Except.error ()
      | none => Except.error ()
    | _ => Except.error ()

/-- Line 51: `', '.join([tag['name'] for tag in article.get('tags', [])])`
up to the join. Iterating an empty string or dict yields nothing; other
non-list shapes raise. -/
def extractTags (article : Json) : Except Unit (List (List Char)) :=
  match pyGetD article "tags".data (Json.jarr []) with
  | Except.error _ => Except.error ()
  | Except.ok tv =>
    match tv with
    | Json.jarr es => tagNames es
    | Json.jstr s => if s.isEmpty then Except.ok [] else Except.error ()
    | Json.jobj fs => if fs.isEmpty then Except.ok [] else Except.error ()
    | _ => Except.error ()

/-- Formatting of a stored score in the history digest (f-string on a
value that is an int or None). -/
def scoreStr : Option Nat → List Char
  | none => "None".data
  | some n => (Nat.repr n).data

/-- Line 62: one line of the history digest,
`f"・{idx}回前の評価: スコア {score}点, 要約: {review[:100]}...\n"`. -/
def entryLine (idx : Nat) (e : Option Nat × List Char) : List Char :=
  "・".data ++ (Nat.repr idx).data ++ "回前の評価: スコア ".data ++ scoreStr e.1 ++
    "点, 要約: ".data ++ e.2.take 100 ++ "...\n".data

/-- The loop of lines 61-62: digest lines with 1-based running index. -/
def digestLines : Nat → List (Option Nat × List Char) → List Char
  | _, [] => []
  | i, e :: rest => entryLine i e ++ digestLines (i + 1) rest

def historyHeader : List Char := "【これまでの評価履歴（最新→過去）】\n".data

def compareInstr : List Char :=
  "今回の評価ではこれまでの履歴と比較して成長点や改善点を含めてコメントしてください。".data

def firstEvalMsg : List Char :=
  "今回が初めての評価なので、振り返りコメントはありません。".data

/-- Lines 59-65: the 振り返り (history) part of the prompt. `past` is the
list handed in by the caller, oldest first; the digest enumerates it
reversed (most recent first). -/
def historyPrompt (past : List (Option Nat × List Char)) : List Char :=
  if past.isEmpty then firstEvalMsg
  else historyHeader ++ digestLines 1 past.reverse ++ compareInstr

/-- The part of the f-string template (lines 69-105) before
`{history_prompt}`, as a function of the already formatted pieces. -/
def promptHead (title body bodyLen lgtm comments tags : List Char) : List Char :=
  "\n以下のQiita記事について100点満点で評価し、理由を添えてください。さらに、以下の評価ポイントに従ってください。\n\n".data ++
  "【評価ポイント】\n- 読みやすさ（初心者にもわかりやすいか）\n- 論理性（見出し構造、流れ）\n- 情報の網羅性\n".data ++
  "- 実用性（役立つ情報かどうか）\n- 人気度（LGTM数、コメント数）\n- 説明の深さ（背景や仕組みの理解を助ける内容があるか）\n".data ++
  "- 独自性（他の記事にはない工夫やアイデアがあるか）\n\n".data ++
  "また、以下の3つのルールが守られているか必ず確認し、**守られていない場合は必ず指摘してください**:\n".data ++
  "- **記事タイトルに「何のために」「何を解決したいか」の目的意識が示されているか**\n".data ++
  "- **記事のタグが3つ以上設定されているか**\n- **マークダウン形式で正しく記載されているか**\n\n".data ++
  "【タイトル】\n".data ++ title ++ "\n\n【本文】\n".data ++ body ++
  "\n\n【補足データ】\n- 文字数: ".data ++ bodyLen ++ "文字\n- LGTM数: ".data ++ lgtm ++
  "\n- コメント数: ".data ++ comments ++ "\n- タグ: ".data ++ tags ++ "\n\n".data

/-- The part of the template after `{history_prompt}`. -/
def promptTail : List Char :=
  "\n\n評価結果は以下の形式で返してください。\n・点数（100点満点）\n・理由（箇条書きで3つ以上）\n".data ++
  "・改善点（箇条書きで3つ以上）\n・振り返りコメント（過去の評価がある場合は「前回と比較して…」のように、過去データと比較したコメントを含めてください。過去の評価がない場合は「今回が初めての評価なので、振り返りコメントはありません」と記載してください。）\n".data

/-- Lines 69-105: the full f-string template. -/
def promptCore (title body bodyLen lgtm comments tags hist : List Char) : List Char :=
  promptHead title body bodyLen lgtm comments tags ++ hist ++ promptTail

/-- Lines 50-105: field extraction (in source order, stopping at the
first raising step) followed by the template. -/
def buildPrompt (article : Json) (past : List (Option Nat × List Char)) :
    Except Unit (List Char) :=
  match extractTags article with
  | Except.error _ => Except.error ()
  | Except.ok tags =>
    match pyGetD article "likes_count".data (Json.jnum 0) with
    | Except.error _ => Except.error ()
    | Except.ok lgtm =>
      match pyGetD article "comments_count".data (Json.jnum 0) with
      | Except.error _ => Except.error ()
      | Except.ok comments =>
        match pyGetD article "body".data (Json.jstr []) with
        | Except.error _ => Except.error ()
        | Except.ok bodyv =>
          match jsonLen bodyv with
          | Except.error _ => Except.error ()
          | Except.ok bodyLen =>
            match pyGetD article "title".data (Json.jstr []) with
            | Except.error _ => Except.error ()
            | Except.ok title =>
              Except.ok (promptCore (jsonFmt title) (jsonFmt bodyv)
                (Nat.repr bodyLen).data (jsonFmt lgtm) (jsonFmt comments)
                (commaSpaceJoin tags) (historyPrompt past))

/-- Lines 50-117: build the prompt, call the LLM (an oracle from prompt
text to outcome), normalize the response whitespace. -/
def evaluateWithOpenai (article : Json)
    (past : List (Option Nat × List Char))
    (llm : List Char → Except Unit (List Char)) : Except Unit (List Char) :=
  match buildPrompt article past with
  | Except.error _ => Except.error ()
  | Except.ok prompt =>
    match llm prompt with
    | Except.error _ => Except.error ()
    | Except.ok raw => Except.ok (cleanResult raw)

/-- One row of the `evaluations` table (lines 23-33): autoincrement id,
user, `article.get('id')`, `article.get('title')`, nullable score, review
text, `CURRENT_TIMESTAMP`. -/
structure Row where
  id : Nat
  user : List Char
  article_id : Option Json
  title : Option Json
  score : Option Nat
  review : List Char
  created_at : Nat

/-- The database: rows plus the autoincrement counter and the clock
(strictly increasing per insert, modelling `CURRENT_TIMESTAMP`). -/
structure Store where
  rows : List Row
  nextId : Nat
  clock : Nat

/-- Ascending `created_at` order (`ORDER BY created_at`). -/
def rowLE (a b : Row) : Prop := a.created_at ≤ b.created_at

/-- Descending `created_at` order (`ORDER BY created_at DESC`). -/
def rowGE (a b : Row) : Prop := b.created_at ≤ a.created_at

instance : DecidableRel rowLE := fun a b => Nat.decLe a.created_at b.created_at

instance : DecidableRel rowGE := fun a b => Nat.decLe b.created_at a.created_at

instance : IsTotal Row rowLE := ⟨fun a b => Nat.le_total a.created_at b.created_at⟩

instance : IsTotal Row rowGE := ⟨fun a b => Nat.le_total b.created_at a.created_at⟩

instance : IsTrans Row rowLE := ⟨fun _ _ _ h1 h2 => Nat.le_trans h1 h2⟩

instance : IsTrans Row rowGE := ⟨fun _ _ _ h1 h2 => Nat.le_trans h2 h1⟩

/-- Line 127: `SELECT score, review FROM evaluations WHERE user = ?
ORDER BY created_at`. -/
def recordHistory (st : Store) (user : List Char) :
    List (Option Nat × List Char) :=
  ((st.rows.filter (fun r => decide (r.user = user))).insertionSort rowLE).map
    (fun r => (r.score, r.review))

/-- One tuple of the `/history/{user}` SELECT (line 165). -/
structure HistEntry where
  article_id : Option Json
  title : Option Json
  score : Option Nat
  created_at : Nat

/-- Lines 164-168: `SELECT article_id, title, score, created_at ...
WHERE user = ? ORDER BY created_at DESC`. -/
def fullHistory (st : Store) (user : List Char) : List HistEntry :=
  ((st.rows.filter (fun r => decide (r.user = user))).insertionSort rowGE).map
    (fun r => ⟨r.article_id, r.title, r.score, r.created_at⟩)

/-- Lines 145-149: INSERT of the new evaluation row and commit. -/
def appendRow (st : Store) (user : List Char) (aid atitle : Option Json)
    (score : Option Nat) (review : List Char) : Store :=
  { rows := st.rows ++
      [{ id := st.nextId, user := user, article_id := aid, title := atitle,
         score := score, review := review, created_at := st.clock }],
    nextId := st.nextId + 1,
    clock := st.clock + 1 }

/-- Values sqlite3 can bind as SQL parameters (`None`, numbers, strings;
lists and dicts raise). -/
def bindable : Option Json → Bool
  | none => true
  | some (Json.jarr _) => false
  | some (Json.jobj _) => false
  | some _ => true

/-- The external outcomes one `evaluate` request can observe: whether
`requests.get` raises, the HTTP status, the `response.json()` outcome,
the LLM call as a function of the prompt, and whether the SQLite
connect/SELECT and INSERT/commit steps succeed. -/
structure RequestInput where
  fetchExc : Bool
  qiitaStatus : Nat
  qiitaBody : Except Unit Json
  llm : List Char → Except Unit (List Char)
  dbReadOk : Bool
  dbWriteOk : Bool

/-- Lines 40-47: `get_qiita_article` — `None` on non-200, parsed JSON on
200, an exception when the request or the JSON parse raises. -/
def getQiitaArticle (inp : RequestInput) : Except Unit (Option Json) :=
  if inp.fetchExc then Except.error ()
  else if inp.qiitaStatus ≠ 200 then Except.ok none
  else
    match inp.qiitaBody with
    | Except.error _ => Except.error ()
    | Except.ok j => Except.ok (some j)

/-- The body of the `evaluate` endpoint. -/
inductive EvalResult where
  | ok : List Char → Option Nat → List Char → EvalResult
  | err : List Char → EvalResult
deriving DecidableEq

def notFoundMsg : List Char := "Qiita記事が取得できませんでした。IDを確認してください。".data

def genericErrMsg : List Char := "予期しないエラーが発生しました。".data

def historyErrMsg : List Char := "履歴取得時にエラーが発生しました。".data

/-- Lines 120-156: the `evaluate` handler. Any raising step inside the
`try` yields the generic error payload with the store unchanged; the
`if not article` fork yields the article-not-found payload. -/
def evaluate (st : Store) (article_id user : List Char) (inp : RequestInput) :
    Store × EvalResult :=
  if inp.dbReadOk = false then (st, EvalResult.err genericErrMsg)
  else
    match getQiitaArticle inp with
    | Except.error _ => (st, EvalResult.err genericErrMsg)
    | Except.ok none => (st, EvalResult.err notFoundMsg)
    | Except.ok (some article) =>
      if pyTruthy article = false then (st, EvalResult.err notFoundMsg)
      else
        match evaluateWithOpenai article (recordHistory st user) inp.llm with
        | Except.error _ => (st, EvalResult.err genericErrMsg)
        | Except.ok evaluation =>
          match pyGet article "id".data, pyGet article "title".data with
          | Except.ok aid, Except.ok atitle =>
            if bindable aid && bindable atitle then
              if inp.dbWriteOk = false then (st, EvalResult.err genericErrMsg)
              else
                (appendRow st user aid atitle (extractScore evaluation) evaluation,
                 EvalResult.ok user (extractScore evaluation) evaluation)
            else (st, EvalResult.err genericErrMsg)
          | _, _ => (st, EvalResult.err genericErrMsg)

/-- Lines 159-175: the `/history/{user}` handler; a raising SQLite step
yields the history error payload. -/
def getUserHistory (st : Store) (user : List Char) (dbOk : Bool) :
    Except (List Char) (List HistEntry) :=
  if dbOk then Except.ok (fullHistory st user) else Except.error historyErrMsg

/-! ### Score extraction: spec-side characterization

`specMatchAt` is written from the spec's words ("a substring of 1-3
digits immediately followed by the score-unit suffix"), to be compared
with the regex model `extractScore` taken from the code. -/

/-- The spec's match relation: at position `i` of `s` stand `k` digits
(`1 ≤ k ≤ 3`) and the character 点 directly after them. -/
def specMatchAt (s : List Char) (i k : Nat) : Bool :=
  decide (1 ≤ k) && decide (k ≤ 3) && decide (((s.drop i).take k).length = k) &&
    ((s.drop i).take k).all isDig && decide (s.get? (i + k) = some '点')

/-- Position-relative form of the spec's match relation. -/
def posMatch (s : List Char) (k : Nat) : Prop :=
  1 ≤ k ∧ k ≤ 3 ∧ (s.take k).length = k ∧ (s.take k).all isDig = true ∧
    s.get? k = some '点'

theorem specMatchAt_iff (s : List Char) (i k : Nat) :
    specMatchAt s i k = true ↔ posMatch (s.drop i) k := by
  have hd : (s.drop i).get? k = s.get? (i + k) := List.get?_drop s i k
  simp [specMatchAt, posMatch, hd, and_assoc]

theorem posMatch_not_lt {s : List Char} {k1 k2 : Nat}
    (h1 : posMatch s k1) (h2 : posMatch s k2) : ¬ k1 < k2 := by
  intro hlt
  obtain ⟨-, -, -, -, hget1⟩ := h1
  obtain ⟨-, -, hlen2, hall2, -⟩ := h2
  have hgt : (s.take k2).get? k1 = s.get? k1 := List.get?_take hlt
  have hmem : '点' ∈ s.take k2 := List.get?_mem (by rw [hgt, hget1])
  have := (List.all_eq_true.mp hall2) _ hmem
  simp [isDig] at this

theorem posMatch_unique {s : List Char} {k1 k2 : Nat}
    (h1 : posMatch s k1) (h2 : posMatch s k2) : k1 = k2 :=
  Nat.le_antisymm (Nat.not_lt.mp (posMatch_not_lt h2 h1))
    (Nat.not_lt.mp (posMatch_not_lt h1 h2))

theorem tryDigits_eq_some {s : List Char} {k : Nat} {g : List Char} :
    tryDigits s k = some g ↔
      ((s.take k).length = k ∧ (s.take k).all isDig = true ∧
        s.get? k = some '点') ∧ g = s.take k := by
  unfold tryDigits
  split
  next hc =>
    constructor
    · intro h
      exact ⟨hc, (Option.some.inj h).symm⟩
    · rintro ⟨-, rfl⟩
      rfl
  next hc =>
    constructor
    · intro h
      exact Option.noConfusion h
    · rintro ⟨hcc, -⟩
      exact absurd hcc hc

theorem posMatch_of_tryDigits {s : List Char} {k : Nat} {g : List Char}
    (h : tryDigits s k = some g) (hk1 : 1 ≤ k) (hk3 : k ≤ 3) :
    posMatch s k ∧ g = s.take k := by
  obtain ⟨⟨a, b, c⟩, d⟩ := tryDigits_eq_some.mp h
  exact ⟨⟨hk1, hk3, a, b, c⟩, d⟩

theorem tryDigits_of_posMatch {s : List Char} {k : Nat} (h : posMatch s k) :
    tryDigits s k = some (s.take k) := by
  obtain ⟨-, -, a, b, c⟩ := h
  exact tryDigits_eq_some.mpr ⟨⟨a, b, c⟩, rfl⟩

theorem matchHere_some_iff {s : List Char} {g : List Char} :
    matchHere s = some g ↔ ∃ k, posMatch s k ∧ g = s.take k := by
  constructor
  · intro h
    unfold matchHere at h
    cases h3 : tryDigits s 3 with
    | some g3 =>
      rw [h3] at h
      obtain ⟨hp, hg⟩ := posMatch_of_tryDigits h3 (by omega) (by omega)
      exact ⟨3, hp, by simpa [hg] using h.symm⟩
    | none =>
      rw [h3] at h
      cases h2 : tryDigits s 2 with
      | some g2 =>
        rw [h2] at h
        obtain ⟨hp, hg⟩ := posMatch_of_tryDigits h2 (by omega) (by omega)
        exact ⟨2, hp, by simpa [hg] using h.symm⟩
      | none =>
        rw [h2] at h
        obtain ⟨hp, hg⟩ := posMatch_of_tryDigits h (by omega) (by omega)
        exact ⟨1, hp, hg⟩
  · rintro ⟨k, hp, rfl⟩
    have hk1 := hp.1
    have hk3 := hp.2.1
    unfold matchHere
    interval_cases k
    · cases h3 : tryDigits s 3 with
      | some g3 =>
        obtain ⟨hp3, -⟩ := posMatch_of_tryDigits h3 (by omega) (by omega)
        exact absurd (posMatch_unique hp hp3) (by omega)
      | none =>
        cases h2 : tryDigits s 2 with
        | some g2 =>
          obtain ⟨hp2, -⟩ := posMatch_of_tryDigits h2 (by omega) (by omega)
          exact absurd (posMatch_unique hp hp2) (by omega)
        | none => exact tryDigits_of_posMatch hp
    · cases h3 : tryDigits s 3 with
      | some g3 =>
        obtain ⟨hp3, -⟩ := posMatch_of_tryDigits h3 (by omega) (by omega)
        exact absurd (posMatch_unique hp hp3) (by omega)
      | none => rw [tryDigits_of_posMatch hp]
    · rw [tryDigits_of_posMatch hp]

theorem matchHere_none_iff {s : List Char} :
    matchHere s = none ↔ ∀ k, ¬ posMatch s k := by
  constructor
  · intro h k hp
    have : matchHere s = some (s.take k) := matchHere_some_iff.mpr ⟨k, hp, rfl⟩
    rw [h] at this
    exact Option.noConfusion this
  · intro h
    cases hm : matchHere s with
    | none => rfl
    | some g =>
      obtain ⟨k, hp, -⟩ := matchHere_some_iff.mp hm
      exact absurd hp (h k)

theorem posMatch_nil (k : Nat) : ¬ posMatch ([] : List Char) k := by
  rintro ⟨h1, -, h3, -⟩
  simp at h3
  omega

theorem reSearch_none_iff (s : List Char) :
    reSearch s = none ↔ ∀ i k, ¬ posMatch (s.drop i) k := by
  induction s with
  | nil =>
    simp only [reSearch, true_iff]
    intro i k
    rw [List.drop_nil]
    exact posMatch_nil k
  | cons c cs ih =>
    unfold reSearch
    cases hm : matchHere (c :: cs) with
    | some g =>
      constructor
      · intro h
        exact Option.noConfusion h
      · intro h
        obtain ⟨k, hp, -⟩ := matchHere_some_iff.mp hm
        exact ((h 0 k) (by simpa using hp)).elim
    | none =>
      rw [ih]
      constructor
      · intro h i k
        cases i with
        | zero =>
          simpa using matchHere_none_iff.mp hm k
        | succ j =>
          simpa using h j k
      · intro h j k
        simpa using h (j + 1) k

theorem reSearch_some_spec {s : List Char} {g : List Char}
    (h : reSearch s = some g) :
    ∃ i k, posMatch (s.drop i) k ∧
      (∀ i' k', posMatch (s.drop i') k' → i ≤ i') ∧
      g = (s.drop i).take k := by
  induction s with
  | nil => exact Option.noConfusion h
  | cons c cs ih =>
    unfold reSearch at h
    cases hm : matchHere (c :: cs) with
    | some g0 =>
      rw [hm] at h
      obtain ⟨k, hp, hg⟩ := matchHere_some_iff.mp hm
      refine ⟨0, k, by simpa using hp, fun i' k' _ => Nat.zero_le i', ?_⟩
      simpa using (Option.some.inj h).symm ▸ hg
    | none =>
      rw [hm] at h
      obtain ⟨i, k, hp, hmin, hg⟩ := ih h
      refine ⟨i + 1, k, by simpa using hp, ?_, by simpa using hg⟩
      intro i' k' hp'
      cases i' with
      | zero =>
        exact absurd (by simpa using hp') (matchHere_none_iff.mp hm k')
      | succ j =>
        have := hmin j k' (by simpa using hp')
        omega

theorem reSearch_shape {s g : List Char} (h : reSearch s = some g) :
    g.all isDig = true ∧ g.length ≤ 3 := by
  obtain ⟨i, k, hp, -, hg⟩ := reSearch_some_spec h
  obtain ⟨-, hk3, hlen, hall, -⟩ := hp
  subst hg
  exact ⟨hall, by omega⟩

theorem digitsVal_aux_lt (ds : List Char) :
    ∀ acc : Nat, ds.all isDig = true →
      List.foldl (fun a c => a * 10 + (c.toNat - 48)) acc ds <
        (acc + 1) * 10 ^ ds.length := by
  induction ds with
  | nil => intro acc _; simpa using Nat.lt_succ_self acc
  | cons c ds ih =>
    intro acc hall
    rw [List.all_cons, Bool.and_eq_true] at hall
    have hc : c.toNat - 48 ≤ 9 := by
      have := hall.1
      simp only [isDig, Bool.and_eq_true, decide_eq_true_eq] at this
      omega
    have h1 := ih (acc * 10 + (c.toNat - 48)) hall.2
    have h2 : (acc * 10 + (c.toNat - 48) + 1) * 10 ^ ds.length ≤
        (acc + 1) * 10 ^ (ds.length + 1) := by
      have : acc * 10 + (c.toNat - 48) + 1 ≤ (acc + 1) * 10 := by omega
      calc (acc * 10 + (c.toNat - 48) + 1) * 10 ^ ds.length
          ≤ (acc + 1) * 10 * 10 ^ ds.length :=
            Nat.mul_le_mul_right _ this
        _ = (acc + 1) * 10 ^ (ds.length + 1) := by ring
    calc List.foldl (fun a c => a * 10 + (c.toNat - 48)) acc (c :: ds)
        = List.foldl (fun a c => a * 10 + (c.toNat - 48))
            (acc * 10 + (c.toNat - 48)) ds := rfl
      _ < (acc * 10 + (c.toNat - 48) + 1) * 10 ^ ds.length := h1
      _ ≤ (acc + 1) * 10 ^ (ds.length + 1) := h2

theorem digitsVal_lt {ds : List Char} (hall : ds.all isDig = true)
    (hlen : ds.length ≤ 3) : digitsVal ds ≤ 999 := by
  have h := digitsVal_aux_lt ds 0 hall
  have h2 : (10 : Nat) ^ ds.length ≤ 10 ^ 3 :=
    Nat.pow_le_pow_right (by omega) hlen
  unfold digitsVal
  omega

theorem posMatch_digit_run (ds rest : List Char)
    (hall : ds.all isDig = true) (h1 : 1 ≤ ds.length) (h3 : ds.length ≤ 3) :
    posMatch (ds ++ '点' :: rest) ds.length := by
  have htake : (ds ++ '点' :: rest).take ds.length = ds := List.take_left ds _
  refine ⟨h1, h3, ?_, ?_, ?_⟩
  · rw [htake]
  · rw [htake]; exact hall
  · rw [List.get?_append_right (Nat.le_refl _)]
    simp

theorem matchHere_digit_run (ds rest : List Char)
    (hall : ds.all isDig = true) (h1 : 1 ≤ ds.length) (h3 : ds.length ≤ 3) :
    matchHere (ds ++ '点' :: rest) = some ds := by
  have := matchHere_some_iff.mpr
    ⟨ds.length, posMatch_digit_run ds rest hall h1 h3, rfl⟩
  rwa [List.take_left ds _] at this

theorem matchHere_long_run (ds rest : List Char)
    (hall : ds.all isDig = true) (h4 : 4 ≤ ds.length) :
    matchHere (ds ++ '点' :: rest) = none := by
  rw [matchHere_none_iff]
  intro k hp
  obtain ⟨hk1, hk3, -, -, hget⟩ := hp
  have hklt : k < ds.length := by omega
  rw [List.get?_append hklt] at hget
  have hmem : '点' ∈ ds := List.get?_mem hget
  have := (List.all_eq_true.mp hall) _ hmem
  simp [isDig] at this

theorem reSearch_of_matchHere {l g : List Char}
    (h : matchHere l = some g) (hne : l ≠ []) : reSearch l = some g := by
  cases l with
  | nil => exact absurd rfl hne
  | cons c cs =>
    unfold reSearch
    rw [h]

theorem reSearch_cons_of_none {c : Char} {cs : List Char}
    (h : matchHere (c :: cs) = none) : reSearch (c :: cs) = reSearch cs := by
  show (match matchHere (c :: cs) with
    | some g => some g
    | none => reSearch cs) = reSearch cs
  rw [h]

theorem reSearch_digit_run :
    ∀ ds : List Char, ∀ rest : List Char, ds.all isDig = true →
      4 ≤ ds.length →
      reSearch (ds ++ '点' :: rest) = some (ds.drop (ds.length - 3)) := by
  intro ds
  induction ds with
  | nil => intro rest _ h4; simp at h4
  | cons c ds ih =>
    intro rest hall h4
    rw [List.all_cons, Bool.and_eq_true] at hall
    have hnone : matchHere ((c :: ds) ++ '点' :: rest) = none :=
      matchHere_long_run (c :: ds) rest
        (by simp [List.all_cons, hall.1, hall.2]) h4
    rw [show (c :: ds) ++ '点' :: rest = c :: (ds ++ '点' :: rest) from rfl]
      at hnone
    rw [show (c :: ds) ++ '点' :: rest = c :: (ds ++ '点' :: rest) from rfl,
      reSearch_cons_of_none hnone]
    by_cases h3 : ds.length = 3
    · have hne : ds ++ '点' :: rest ≠ [] := by
        cases ds with
        | nil => simp at h3
        | cons a t => simp
      rw [reSearch_of_matchHere
        (matchHere_digit_run ds rest hall.2 (by omega) (by omega)) hne]
      have hd : (c :: ds).length - 3 = 1 := by simp [h3]
      rw [hd, List.drop_one, List.tail_cons]
    · have h4' : 4 ≤ ds.length := by
        have : (c :: ds).length = ds.length + 1 := rfl
        omega
      rw [ih rest hall.2 h4']
      congr 1
      have hlen : (c :: ds).length - 3 = (ds.length - 3) + 1 := by
        simp only [List.length_cons]
        omega
      rw [hlen, List.drop_succ_cons]

/-! ### Structure of one `evaluate` request -/

/-- Either the whole pipeline succeeds — the result is the success payload
and the store gains exactly the corresponding row — or the result is an
error payload and the store is returned unchanged. -/
theorem evaluate_cases (st : Store) (aid user : List Char)
    (inp : RequestInput) :
    (∃ a t rev, evaluate st aid user inp =
      (appendRow st user a t (extractScore rev) rev,
       EvalResult.ok user (extractScore rev) rev)) ∨
    (∃ m, evaluate st aid user inp = (st, EvalResult.err m)) := by
  unfold evaluate
  repeat' split
  all_goals
    first
      | (right; exact ⟨_, rfl⟩)
      | (left; exact ⟨_, _, _, rfl⟩)

theorem evaluate_ok_score {st : Store} {aid user : List Char}
    {inp : RequestInput} {sc : Option Nat} {rev : List Char}
    (h : (evaluate st aid user inp).2 = EvalResult.ok user sc rev) :
    sc = extractScore rev := by
  rcases evaluate_cases st aid user inp with ⟨a, t, rev0, he⟩ | ⟨m, he⟩
  · rw [he] at h
    obtain ⟨-, h2, h3⟩ := EvalResult.ok.inj h
    rw [← h2, ← h3]
  · rw [he] at h
    exact EvalResult.noConfusion h

theorem evaluate_appended_score {st : Store} {aid user : List Char}
    {inp : RequestInput} {r : Row}
    (h : (evaluate st aid user inp).1.rows = st.rows ++ [r]) :
    r.score = extractScore r.review := by
  rcases evaluate_cases st aid user inp with ⟨a, t, rev0, he⟩ | ⟨m, he⟩
  · rw [he] at h
    simp only [appendRow] at h
    have := List.append_inj_right h rfl
    obtain rfl := (List.cons.inj this).1.symm
    rfl
  · rw [he] at h
    have := congrArg List.length h
    simp at this

/-- Claim C1: for every normalized evaluation text, if the text contains
a substring of 1-3 digits immediately followed by 点, the score is the
integer parsed from the digits of the first (leftmost) such match, and
otherwise the score is `none`; the score `evaluate` returns and stores
is `extractScore` of the review. -/
theorem claim_C1 :
    (∀ s : List Char,
      (extractScore s = none ↔ ∀ i k, specMatchAt s i k = false)) ∧
    (∀ (s : List Char) (v : Nat), extractScore s = some v →
      ∃ i k, specMatchAt s i k = true ∧
        (∀ i' k', specMatchAt s i' k' = true → i ≤ i') ∧
        v = digitsVal ((s.drop i).take k)) ∧
    (∀ (st : Store) (aid user : List Char) (inp : RequestInput)
      (sc : Option Nat) (rev : List Char),
      (evaluate st aid user inp).2 = EvalResult.ok user sc rev →
      sc = extractScore rev) ∧
    (∀ (st : Store) (aid user : List Char) (inp : RequestInput) (r : Row),
      (evaluate st aid user inp).1.rows = st.rows ++ [r] →
      r.score = extractScore r.review) := by
  refine ⟨?_, ?_, ?_, ?_⟩
  · intro s
    constructor
    · intro h i k
      have hn : reSearch s = none := by
        unfold extractScore at h
        exact Option.map_eq_none.mp h
      have := (reSearch_none_iff s).mp hn i k
      by_contra hb
      rw [Bool.not_eq_false, specMatchAt_iff] at hb
      exact this hb
    · intro h
      unfold extractScore
      rw [(reSearch_none_iff s).mpr]
      · rfl
      · intro i k hp
        have := h i k
        rw [← Bool.not_eq_true, specMatchAt_iff] at this
        exact this hp
  · intro s v h
    unfold extractScore at h
    obtain ⟨g, hg, hv⟩ := Option.map_eq_some.mp h
    obtain ⟨i, k, hp, hmin, hgik⟩ := reSearch_some_spec hg
    refine ⟨i, k, (specMatchAt_iff s i k).mpr hp, ?_, ?_⟩
    · intro i' k' hm'
      exact hmin i' k' ((specMatchAt_iff s i' k').mp hm')
    · rw [← hv, hgik]
  · intro st aid user inp sc rev h
    exact evaluate_ok_score h
  · intro st aid user inp r h
    exact evaluate_appended_score h

/-- Witness for C1 at the text `abc85点`: score 85, matched at position 3
with 2 digits. -/
theorem claim_C1_witness :
    extractScore "abc85点".data = some 85 ∧
    (∃ i k, specMatchAt "abc85点".data i k = true ∧
      (∀ i' k', specMatchAt "abc85点".data i' k' = true → i ≤ i') ∧
      85 = digitsVal (("abc85点".data.drop i).take k)) :=
  ⟨by decide, claim_C1.2.1 "abc85点".data 85 (by decide)⟩

/-- Claim C10: an extracted score is at most 999 (at most three digits
are parsed), and a run of four or more digits directly before 点 at the
head of the text yields exactly its last three digits as the score. -/
theorem claim_C10 :
    (∀ (s : List Char) (v : Nat), extractScore s = some v → v ≤ 999) ∧
    (∀ ds rest : List Char, ds.all isDig = true → 4 ≤ ds.length →
      extractScore (ds ++ '点' :: rest) =
        some (digitsVal (ds.drop (ds.length - 3)))) := by
  constructor
  · intro s v h
    unfold extractScore at h
    obtain ⟨g, hg, hv⟩ := Option.map_eq_some.mp h
    obtain ⟨hall, hlen⟩ := reSearch_shape hg
    rw [← hv]
    exact digitsVal_lt hall hlen
  · intro ds rest hall h4
    unfold extractScore
    rw [reSearch_digit_run ds rest hall h4]
    rfl

/-- Witness for C10 at the text `1234点`: the score is 234 = last three
digits, and it is within 0-999. -/
theorem claim_C10_witness :
    extractScore "1234点".data = some 234 ∧ 234 ≤ 999 ∧
    extractScore ("1234".data ++ '点' :: []) =
      some (digitsVal ("1234".data.drop ("1234".data.length - 3))) :=
  ⟨by decide, claim_C10.1 "1234点".data 234 (by decide),
    claim_C10.2 "1234".data [] (by decide) (by decide)⟩

/-- Claim C6: every `evaluate` request either completes the full pipeline
and appends exactly one row, or ends in an error payload with the store
unchanged. -/
theorem claim_C6 (st : Store) (aid user : List Char) (inp : RequestInput) :
    ((∃ sc rev, (evaluate st aid user inp).2 = EvalResult.ok user sc rev) ∧
      ∃ r, (evaluate st aid user inp).1.rows = st.rows ++ [r]) ∨
    ((∃ m, (evaluate st aid user inp).2 = EvalResult.err m) ∧
      (evaluate st aid user inp).1 = st) := by
  rcases evaluate_cases st aid user inp with ⟨a, t, rev, he⟩ | ⟨m, he⟩
  · left
    rw [he]
    exact ⟨⟨_, _, rfl⟩, _, rfl⟩
  · right
    rw [he]
    exact ⟨⟨m, rfl⟩, rfl⟩

theorem evaluateWithOpenai_ok {a : Json} {past : List (Option Nat × List Char)}
    {llm : List Char → Except Unit (List Char)} {ev : List Char}
    (h : evaluateWithOpenai a past llm = Except.ok ev) :
    ∃ raw, ev = cleanResult raw := by
  unfold evaluateWithOpenai at h
  split at h
  · exact Except.noConfusion h
  · split at h
    · exact Except.noConfusion h
    · rename_i raw hr
      exact ⟨raw, (Except.ok.inj h).symm⟩

theorem evaluate_ok_rev {st : Store} {aid user : List Char}
    {inp : RequestInput} {sc : Option Nat} {rev : List Char}
    (h : (evaluate st aid user inp).2 = EvalResult.ok user sc rev) :
    ∃ raw, rev = cleanResult raw := by
  unfold evaluate at h
  repeat' split at h
  all_goals try exact EvalResult.noConfusion h
  rename_i raw hok x1 x2 a t hid htl hb hw
  obtain ⟨-, -, h3⟩ := EvalResult.ok.inj h
  obtain ⟨raw0, hr0⟩ := evaluateWithOpenai_ok hok
  exact ⟨raw0, by rw [← h3]; exact hr0⟩

/-! ### Concrete fixtures used by witnesses and counterexamples -/

def stW : Store := { rows := [], nextId := 1, clock := 0 }

def artW : Json := Json.jobj [("id".data, Json.jstr "a1".data)]

def llmFail : List Char → Except Unit (List Char) := fun _ => Except.error ()

def inpW404 : RequestInput :=
  { fetchExc := false, qiitaStatus := 404, qiitaBody := Except.error (),
    llm := llmFail, dbReadOk := true, dbWriteOk := true }

def inpWMal : RequestInput :=
  { fetchExc := false, qiitaStatus := 200, qiitaBody := Except.error (),
    llm := llmFail, dbReadOk := true, dbWriteOk := true }

def inpWFalsy : RequestInput :=
  { fetchExc := false, qiitaStatus := 200,
    qiitaBody := Except.ok (Json.jobj []),
    llm := llmFail, dbReadOk := true, dbWriteOk := true }

def rawC3 : List Char := "85点\n\n\n\nAB".data

def inpWC3 : RequestInput :=
  { fetchExc := false, qiitaStatus := 200, qiitaBody := Except.ok artW,
    llm := fun _ => Except.ok rawC3, dbReadOk := true, dbWriteOk := true }

/-! ### Claims about the error paths -/

/-- Claim C2: whenever the content API responds with a status other than
200, `evaluate` returns an error payload and inserts no row. -/
theorem claim_C2 (st : Store) (aid user : List Char) (inp : RequestInput)
    (h : inp.qiitaStatus ≠ 200) :
    (∃ m, (evaluate st aid user inp).2 = EvalResult.err m) ∧
    (evaluate st aid user inp).1 = st := by
  cases hrb : inp.dbReadOk with
  | false =>
    exact ⟨⟨genericErrMsg, by simp [evaluate, hrb]⟩, by simp [evaluate, hrb]⟩
  | true =>
    cases hfc : inp.fetchExc with
    | true =>
      have hq : getQiitaArticle inp = Except.error () := by
        simp [getQiitaArticle, hfc]
      exact ⟨⟨genericErrMsg, by simp [evaluate, hrb, hq]⟩,
        by simp [evaluate, hrb, hq]⟩
    | false =>
      have hq : getQiitaArticle inp = Except.ok none := by
        simp [getQiitaArticle, hfc, h]
      exact ⟨⟨notFoundMsg, by simp [evaluate, hrb, hq]⟩,
        by simp [evaluate, hrb, hq]⟩

/-- Witness for C2 at a 404 response. -/
theorem claim_C2_witness :
    (∃ m, (evaluate stW "a1".data "u".data inpW404).2 = EvalResult.err m) ∧
    (evaluate stW "a1".data "u".data inpW404).1 = stW :=
  claim_C2 stW "a1".data "u".data inpW404 (by decide)

/-- Claim C9: a 200 response whose parsed JSON body is falsy is treated
exactly like article-not-found: the ArticleNotFound payload is returned
and no row is inserted. -/
theorem claim_C9 (st : Store) (aid user : List Char) (inp : RequestInput)
    (j : Json) (hr : inp.dbReadOk = true) (hf : inp.fetchExc = false)
    (hs : inp.qiitaStatus = 200) (hb : inp.qiitaBody = Except.ok j)
    (ht : pyTruthy j = false) :
    evaluate st aid user inp = (st, EvalResult.err notFoundMsg) := by
  have hq : getQiitaArticle inp = Except.ok (some j) := by
    simp [getQiitaArticle, hf, hs, hb]
  simp [evaluate, hr, hq, ht]

/-- Witness for C9 at a 200 response whose body is the empty object. -/
theorem claim_C9_witness :
    evaluate stW "a1".data "u".data inpWFalsy = (stW, EvalResult.err notFoundMsg) :=
  claim_C9 stW "a1".data "u".data inpWFalsy (Json.jobj []) rfl rfl rfl rfl rfl

/-- Counterexample to C7: a 200 response whose body cannot be parsed as
JSON is surfaced as the generic unexpected-failure message, which differs
from the ArticleNotFound string the claim asserts. -/
theorem claim_C7_cex :
    (evaluate stW "a1".data "u".data inpWMal).2 = EvalResult.err genericErrMsg ∧
    genericErrMsg ≠ notFoundMsg := by
  exact ⟨rfl, by decide⟩

/-- Claim C7 as amended: a 200 response whose body cannot be parsed as
JSON raises inside the handler and is surfaced as the generic
unexpected-failure message (store unchanged), not the ArticleNotFound
string; the ArticleNotFound string is reserved for non-200 statuses and
falsy parsed bodies. -/
theorem claim_C7_amended (st : Store) (aid user : List Char)
    (inp : RequestInput) (hf : inp.fetchExc = false)
    (hs : inp.qiitaStatus = 200) (hb : inp.qiitaBody = Except.error ()) :
    evaluate st aid user inp = (st, EvalResult.err genericErrMsg) := by
  cases hrb : inp.dbReadOk with
  | false => simp [evaluate, hrb]
  | true =>
    have hq : getQiitaArticle inp = Except.error () := by
      simp [getQiitaArticle, hf, hs, hb]
    simp [evaluate, hrb, hq]

/-- Witness for the amended C7. -/
theorem claim_C7_amended_witness :
    evaluate stW "a1".data "u".data inpWMal = (stW, EvalResult.err genericErrMsg) :=
  claim_C7_amended stW "a1".data "u".data inpWMal rfl rfl rfl

/-! ### Claim C3: whitespace normalization of the review -/

theorem mem_collapseOnce (l : List Char) (x : Char) :
    x ∈ collapseOnce l → x ∈ l := by
  induction l using collapseOnce.induct with
  | case1 => intro h; simpa [collapseOnce] using h
  | case2 c => intro h; simpa [collapseOnce] using h
  | case3 c1 c2 rest hcond ih =>
    intro h
    simp only [collapseOnce] at h
    rw [if_pos hcond] at h
    rcases List.mem_cons.mp h with hx | hx
    · subst hx
      exact List.mem_cons.mpr (Or.inl hcond.1.symm)
    · exact List.mem_cons.mpr (Or.inr (List.mem_cons.mpr (Or.inr (ih hx))))
  | case4 c1 c2 rest hcond ih =>
    intro h
    simp only [collapseOnce] at h
    rw [if_neg hcond] at h
    rcases List.mem_cons.mp h with hx | hx
    · subst hx
      exact List.mem_cons.mpr (Or.inl rfl)
    · exact List.mem_cons.mpr (Or.inr (ih hx))

theorem mem_pyStrip {l : List Char} {x : Char} (h : x ∈ pyStrip l) : x ∈ l := by
  unfold pyStrip at h
  rw [List.mem_reverse] at h
  have h1 := (List.dropWhile_sublist _).subset h
  rw [List.mem_reverse] at h1
  exact (List.dropWhile_sublist _).subset h1

/-- Counterexample to C3: with the raw LLM output `85点\n\n\n\nAB` the
review returned by `evaluate` contains two consecutive spaces — the
single `.replace("  ", " ")` pass does not fully collapse runs. -/
theorem claim_C3_cex :
    (evaluate stW "a1".data "u".data inpWC3).2 =
      EvalResult.ok "u".data (some 85) "85点  AB".data ∧
    (' ' :: ' ' :: []) <:+: "85点  AB".data := by
  exact ⟨by decide, by decide⟩

/-- Claim C3 as amended: the review is the raw text with every newline
replaced by a space, then ONE left-to-right pass replacing each
non-overlapping pair of spaces by a single space, then trimmed; the
result never contains a literal newline, but it may contain two
consecutive spaces and may be empty. -/
theorem claim_C3_amended :
    (∀ raw : List Char, ¬ '\n' ∈ cleanResult raw) ∧
    (∀ (st : Store) (aid user : List Char) (inp : RequestInput)
      (sc : Option Nat) (rev : List Char),
      (evaluate st aid user inp).2 = EvalResult.ok user sc rev →
      ¬ '\n' ∈ rev) := by
  have hnl : ∀ raw : List Char, ¬ '\n' ∈ cleanResult raw := by
    intro raw hmem
    have h1 := mem_pyStrip hmem
    have h2 := mem_collapseOnce _ _ h1
    rw [List.mem_map] at h2
    obtain ⟨c, -, hc⟩ := h2
    by_cases h : c = '\n'
    · rw [if_pos h] at hc
      exact absurd hc (by decide)
    · rw [if_neg h] at hc
      exact h hc
  refine ⟨hnl, ?_⟩
  intro st aid user inp sc rev h
  obtain ⟨raw, rfl⟩ := evaluate_ok_rev h
  exact hnl raw

/-- Witness for the amended C3 on a successful concrete request. -/
theorem claim_C3_amended_witness :
    ¬ '\n' ∈ cleanResult rawC3 ∧ ¬ '\n' ∈ "85点  AB".data :=
  ⟨claim_C3_amended.1 rawC3,
   claim_C3_amended.2 stW "a1".data "u".data inpWC3 (some 85)
     "85点  AB".data (by decide)⟩

/-! ### Claim C4: the history digest inside the prompt -/

theorem digest_get (l : List (Option Nat × List Char)) :
    ∀ i k : Nat, i < l.length →
      entryLine (k + i) (l.getD i (none, [])) <:+: digestLines k l := by
  induction l with
  | nil => intro i k hi; simp at hi
  | cons e l ih =>
    intro i k hi
    cases i with
    | zero =>
      simp only [Nat.add_zero, List.getD_cons_zero, digestLines]
      exact ⟨[], digestLines (k + 1) l, by simp⟩
    | succ i =>
      rw [List.getD_cons_succ, show k + (i + 1) = (k + 1) + i from by omega]
      have hd := ih i (k + 1) (by simpa using hi)
      refine hd.trans ?_
      show digestLines (k + 1) l <:+: digestLines k (e :: l)
      simp only [digestLines]
      exact ⟨entryLine k e, [], by simp⟩

theorem buildPrompt_ok {article : Json} {past : List (Option Nat × List Char)}
    {p : List Char} (h : buildPrompt article past = Except.ok p) :
    ∃ pre, p = pre ++ historyPrompt past ++ promptTail := by
  unfold buildPrompt at h
  repeat' split at h
  all_goals try exact Except.noConfusion h
  exact ⟨_, (Except.ok.inj h).symm⟩

/-- Claim C4: whenever the prompt builder succeeds on an oldest-first
history list, a non-empty history yields a digest in the prompt whose
`i`-th line (0-based, most recent first) is the formatted entry with
1-based index `i+1`, the entry's score and the first 100 characters of
its review, together with the compare-with-history instruction; an empty
history yields the fixed first-evaluation sentence. -/
theorem claim_C4 (article : Json) (past : List (Option Nat × List Char))
    (p : List Char) (hp : buildPrompt article past = Except.ok p) :
    (past ≠ [] →
      (∀ i, i < past.length →
        entryLine (i + 1) (past.reverse.getD i (none, [])) <:+: p) ∧
      compareInstr <:+: p ∧ historyHeader <:+: p) ∧
    (past = [] → firstEvalMsg <:+: p) := by
  obtain ⟨pre, rfl⟩ := buildPrompt_ok hp
  constructor
  · intro hne
    have hie : past.isEmpty = false := by
      cases past with
      | nil => exact absurd rfl hne
      | cons e l => rfl
    have hh : historyPrompt past =
        historyHeader ++ digestLines 1 past.reverse ++ compareInstr := by
      simp [historyPrompt, hie]
    refine ⟨?_, ?_, ?_⟩
    · intro i hi
      have hd := digest_get past.reverse i 1 (by simpa using hi)
      rw [Nat.add_comm 1 i] at hd
      refine hd.trans ?_
      rw [hh]
      exact ⟨pre ++ historyHeader, compareInstr ++ promptTail,
        by simp [List.append_assoc]⟩
    · rw [hh]
      exact ⟨pre ++ historyHeader ++ digestLines 1 past.reverse, promptTail,
        by simp [List.append_assoc]⟩
    · rw [hh]
      exact ⟨pre, digestLines 1 past.reverse ++ compareInstr ++ promptTail,
        by simp [List.append_assoc]⟩
  · intro he
    subst he
    exact ⟨pre, promptTail, rfl⟩

def histW : List (Option Nat × List Char) :=
  [(some 70, "first".data), (none, "second".data)]

def pW : List Char := ((buildPrompt artW histW).toOption).getD []

def pW0 : List Char := ((buildPrompt artW []).toOption).getD []

/-- Witness for C4: a two-entry history (oldest first) and the empty
history, on a concrete article. -/
theorem claim_C4_witness :
    buildPrompt artW histW = Except.ok pW ∧
    entryLine 1 (histW.reverse.getD 0 (none, [])) <:+: pW ∧
    compareInstr <:+: pW ∧
    buildPrompt artW [] = Except.ok pW0 ∧
    firstEvalMsg <:+: pW0 := by
  have h1 : buildPrompt artW histW = Except.ok pW := rfl
  have h0 : buildPrompt artW [] = Except.ok pW0 := rfl
  have c := claim_C4 artW histW pW h1
  have c0 := claim_C4 artW [] pW0 h0
  refine ⟨h1, ?_, ?_, h0, ?_⟩
  · exact (c.1 (by decide)).1 0 (by decide)
  · exact (c.1 (by decide)).2.1
  · exact c0.2 rfl

/-! ### Claims C5 and C8: the store across several requests -/

/-- One `evaluate` request: path parameter, query parameter and the
external outcomes it observes. -/
structure Req where
  article_id : List Char
  user : List Char
  inp : RequestInput

/-- Run a sequence of requests against the store. -/
def runEvals (st : Store) (reqs : List Req) : Store :=
  reqs.foldl (fun s q => (evaluate s q.article_id q.user q.inp).1) st

/-- A request whose external outcomes make the pipeline succeed whatever
the store contents are. -/
def ReqOk (q : Req) : Prop :=
  ∀ st : Store, ∃ sc rev,
    (evaluate st q.article_id q.user q.inp).2 = EvalResult.ok q.user sc rev

/-- Number of stored rows belonging to a user. -/
def countUser (st : Store) (user : List Char) : Nat :=
  (st.rows.filter (fun r => decide (r.user = user))).length

/-- Refinement of `evaluate_cases` that also ties the inserted
`article_id` and `title` columns to the fetched article. -/
theorem evaluate_cases_full (st : Store) (aid user : List Char)
    (inp : RequestInput) :
    (∃ j a t rev,
      getQiitaArticle inp = Except.ok (some j) ∧
      pyGet j "id".data = Except.ok a ∧
      pyGet j "title".data = Except.ok t ∧
      evaluate st aid user inp =
        (appendRow st user a t (extractScore rev) rev,
         EvalResult.ok user (extractScore rev) rev)) ∨
    (∃ m, evaluate st aid user inp = (st, EvalResult.err m)) := by
  unfold evaluate
  repeat' split
  all_goals
    first
      | (right; exact ⟨_, rfl⟩)
      | (left; exact ⟨_, _, _, _, by assumption, by assumption, by assumption, rfl⟩)

theorem step_ok {q : Req} (hq : ReqOk q) (st : Store) :
    ∃ j a t rev,
      getQiitaArticle q.inp = Except.ok (some j) ∧
      pyGet j "id".data = Except.ok a ∧
      pyGet j "title".data = Except.ok t ∧
      evaluate st q.article_id q.user q.inp =
        (appendRow st q.user a t (extractScore rev) rev,
         EvalResult.ok q.user (extractScore rev) rev) := by
  rcases evaluate_cases_full st q.article_id q.user q.inp with h | ⟨m, he⟩
  · exact h
  · obtain ⟨sc, rev, hok⟩ := hq st
    rw [he] at hok
    exact EvalResult.noConfusion hok

theorem step_count {q : Req} (hq : ReqOk q) (st : Store) (user : List Char) :
    countUser ((evaluate st q.article_id q.user q.inp).1) user =
      countUser st user + (if q.user = user then 1 else 0) := by
  obtain ⟨j, a, t, rev, -, -, -, he⟩ := step_ok hq st
  rw [he]
  simp only [countUser, appendRow, List.filter_append, List.length_append]
  by_cases h : q.user = user
  · simp [h]
  · simp [h]

theorem runEvals_count (user : List Char) :
    ∀ (reqs : List Req) (st : Store),
      (∀ q ∈ reqs, q.user = user ∧ ReqOk q) →
      countUser (runEvals st reqs) user = countUser st user + reqs.length := by
  intro reqs
  induction reqs with
  | nil => intro st _; simp [runEvals]
  | cons q reqs ih =>
    intro st h
    have hq := h q (List.mem_cons_self q reqs)
    have hrest : ∀ q2 ∈ reqs, q2.user = user ∧ ReqOk q2 :=
      fun q2 hm => h q2 (List.mem_cons_of_mem q hm)
    have hstep : runEvals st (q :: reqs) =
        runEvals ((evaluate st q.article_id q.user q.inp).1) reqs := rfl
    rw [hstep, ih _ hrest, step_count hq.2 st user]
    rw [if_pos hq.1]
    simp [List.length_cons]
    omega

/-- Claim C5: starting from a store with no rows for a user, after `N`
successful `evaluate` calls for that user the history endpoint returns
exactly `N` records ordered newest-first by creation time. -/
theorem claim_C5 (user : List Char) (reqs : List Req) (st : Store)
    (h0 : countUser st user = 0)
    (hall : ∀ q ∈ reqs, q.user = user ∧ ReqOk q) :
    getUserHistory (runEvals st reqs) user true =
      Except.ok (fullHistory (runEvals st reqs) user) ∧
    (fullHistory (runEvals st reqs) user).length = reqs.length ∧
    List.Sorted (fun a b : HistEntry => b.created_at ≤ a.created_at)
      (fullHistory (runEvals st reqs) user) := by
  refine ⟨rfl, ?_, ?_⟩
  · have hc := runEvals_count user reqs st hall
    rw [h0, Nat.zero_add] at hc
    simp only [fullHistory, List.length_map, List.length_insertionSort]
    exact hc
  · have hs := List.sorted_insertionSort rowGE
      ((runEvals st reqs).rows.filter (fun r => decide (r.user = user)))
    exact List.Pairwise.map _ (fun a b hab => hab) hs

def qW : Req := { article_id := "a1".data, user := "u".data, inp := inpWC3 }

/-- The request `qW` succeeds against every store: its article, LLM and
database oracles are all set to succeed. -/
theorem reqOk_W : ReqOk qW :=
  fun st => ⟨some 85, cleanResult rawC3, rfl⟩

/-- Witness for C5: two successful identical requests from the empty
store. -/
theorem claim_C5_witness :
    getUserHistory (runEvals stW [qW, qW]) "u".data true =
      Except.ok (fullHistory (runEvals stW [qW, qW]) "u".data) ∧
    (fullHistory (runEvals stW [qW, qW]) "u".data).length = 2 ∧
    List.Sorted (fun a b : HistEntry => b.created_at ≤ a.created_at)
      (fullHistory (runEvals stW [qW, qW]) "u".data) :=
  claim_C5 "u".data [qW, qW] stW rfl
    (fun q hm => by
      rcases List.mem_cons.mp hm with rfl | hm2
      · exact ⟨rfl, reqOk_W⟩
      · rcases List.mem_cons.mp hm2 with rfl | hm3
        · exact ⟨rfl, reqOk_W⟩
        · exact absurd hm3 (List.not_mem_nil q))

/-- Claim C8: two successful `evaluate` calls with identical arguments
append two distinct rows (distinct autoincrement ids) with the same user
and the same stored article identifier — there is no deduplication. -/
theorem claim_C8 (st : Store) (q : Req) (hq : ReqOk q) :
    ∃ r1 r2,
      ((evaluate (evaluate st q.article_id q.user q.inp).1
          q.article_id q.user q.inp).1).rows = st.rows ++ [r1, r2] ∧
      r1.id ≠ r2.id ∧ r1.user = q.user ∧ r2.user = q.user ∧
      r1.article_id = r2.article_id := by
  obtain ⟨j1, a1, t1, rev1, hg1, hi1, ht1, he1⟩ := step_ok hq st
  obtain ⟨j2, a2, t2, rev2, hg2, hi2, ht2, he2⟩ :=
    step_ok hq ((evaluate st q.article_id q.user q.inp).1)
  have hj : j1 = j2 := by
    rw [hg1] at hg2
    exact Option.some.inj (Except.ok.inj hg2)
  have ha : a1 = a2 := by
    subst hj
    rw [hi1] at hi2
    exact Except.ok.inj hi2
  refine ⟨{ id := st.nextId, user := q.user, article_id := a1, title := t1,
            score := extractScore rev1, review := rev1, created_at := st.clock },
          { id := st.nextId + 1, user := q.user, article_id := a2, title := t2,
            score := extractScore rev2, review := rev2,
            created_at := st.clock + 1 }, ?_,
          by show st.nextId ≠ st.nextId + 1; omega, rfl, rfl, ha⟩
  have h1 : (evaluate st q.article_id q.user q.inp).1 =
      appendRow st q.user a1 t1 (extractScore rev1) rev1 := by rw [he1]
  rw [h1] at he2
  rw [h1, he2]
  simp [appendRow]

/-- Witness for C8: the concrete always-succeeding request from the
empty store. -/
theorem claim_C8_witness :
    ∃ r1 r2,
      ((evaluate (evaluate stW qW.article_id qW.user qW.inp).1
          qW.article_id qW.user qW.inp).1).rows = stW.rows ++ [r1, r2] ∧
      r1.id ≠ r2.id ∧ r1.user = qW.user ∧ r2.user = qW.user ∧
      r1.article_id = r2.article_id :=
  claim_C8 stW qW reqOk_W

example : extractScore "85点".data = some 85 := by decide
example : extractScore "x 1234点 y".data = some 234 := by decide
example : extractScore "abc".data = none := by decide
example : cleanResult "85点\n\n\n\nAB".data = "85点  AB".data := by decide
example : cleanResult "  a b  ".data = "a b".data := by decide
